import Mathlib

/-
Shallow embedding of the lun bytecode virtual machine
(src/crates/lun_vm/src/lib.rs) and proofs about it.

Machine integers are modelled as Nat with explicit reduction mod 2^64 at
the points where the Rust code performs wrapping 64-bit arithmetic
(release-mode semantics of +=, -= and the wrapping_* intrinsics).
Rust panics (the TODO interrupt sites, slice out-of-bounds indexing,
AFunct unwrap, wrapping_div with zero divisor) are modelled as an
Except error carrying a Trap constructor named after the panic site.
-/

namespace Lun

/-- Wrapping 64-bit addition, the behaviour of u64 + / += and
wrapping_add in the source. -/
def wadd64 (a b : Nat) : Nat := (a + b) % 2 ^ 64

/-- Wrapping 64-bit subtraction, the behaviour of u64 -= and
wrapping_sub in the source. -/
def wsub64 (a b : Nat) : Nat := (a + (2 ^ 64 - b % 2 ^ 64)) % 2 ^ 64

/-- Memory access width, mirroring enum Size in the source
(Byte = 1, Half = 2, Word = 4, Double = 8). -/
inductive Size where
  | Byte
  | Half
  | Word
  | Double
deriving DecidableEq, Repr

/-- Numeric value of a Size, mirroring the repr(u8) discriminants used
via size as usize in the source. -/
def Size.bytes : Size → Nat
  | .Byte => 1
  | .Half => 2
  | .Word => 4
  | .Double => 8

/-- Trap reasons. The source currently aborts with a panic at each of
these sites; each constructor names one panic site of lib.rs. -/
inductive Trap where
  /-- panic "cannot read special region." in Vm::read -/
  | specialRead
  /-- panic "cannot write to special region." in Vm::write -/
  | specialWrite
  /-- panic "cannot write to program region." in Vm::write -/
  | programWrite
  /-- panic "unknown address" in Vm::read / Vm::write -/
  | unknownAddress
  /-- implicit panic from slicing program/stack out of bounds when the
  accessed range straddles past the end of the backing buffer -/
  | outOfBounds
  /-- panic "invalid instruction exception" in Vm::step -/
  | invalidOpcode
  /-- panic from AFunct::from_integer(..).unwrap() in decode -/
  | invalidFunct
  /-- panic "cannot perform bitwise operation on floating point number" -/
  | bitwiseOnFloat
  /-- panic of u64::wrapping_div / wrapping_rem with zero divisor -/
  | divByZero
deriving DecidableEq, Repr

/-- Modelled from the spec: the Opcode enumeration of crate lun_bc,
which is not under src/. Spec section 4.1 lists the opcodes, grouped by
family, as a dense enumeration with a stable 1:1 mapping to 8-bit
values; we take them in the listed order starting at 0. -/
inductive Opcode where
  | Add | Sub | Mul | Div | Rem
  | Clt | Cge | Ceq | Cne
  | And | Or | Xor
  | Call | Ret | Jze | Beq | Bne | Blt | Bge
  | LdB | LdH | LdW | LdD | StB | StH | StW | StD
  | LiB | LiH | LiW | LiD
  | Mov | Push | Pop
deriving DecidableEq, Repr

/-- Modelled from the spec: Opcode::from_integer of crate lun_bc
(bytemuck::Contiguous), the total function from a raw byte to an
optional opcode, unknown byte giving none (spec section 4.1). -/
def Opcode.fromByte : Nat → Option Opcode
  | 0 => some .Add
  | 1 => some .Sub
  | 2 => some .Mul
  | 3 => some .Div
  | 4 => some .Rem
  | 5 => some .Clt
  | 6 => some .Cge
  | 7 => some .Ceq
  | 8 => some .Cne
  | 9 => some .And
  | 10 => some .Or
  | 11 => some .Xor
  | 12 => some .Call
  | 13 => some .Ret
  | 14 => some .Jze
  | 15 => some .Beq
  | 16 => some .Bne
  | 17 => some .Blt
  | 18 => some .Bge
  | 19 => some .LdB
  | 20 => some .LdH
  | 21 => some .LdW
  | 22 => some .LdD
  | 23 => some .StB
  | 24 => some .StH
  | 25 => some .StW
  | 26 => some .StD
  | 27 => some .LiB
  | 28 => some .LiH
  | 29 => some .LiW
  | 30 => some .LiD
  | 31 => some .Mov
  | 32 => some .Push
  | 33 => some .Pop
  | _ => none

/-- Modelled from the spec: the AFunct enumeration of crate lun_bc,
X (integer), F16, F32, F64, encoded in 4 bits (spec section 4.1),
dense from 0. -/
inductive AFunct where
  | X
  | F16
  | F32
  | F64
deriving DecidableEq, Repr

/-- Modelled from the spec: AFunct::from_integer of crate lun_bc,
from a 4-bit value to an optional funct, unknown value giving none. -/
def AFunct.fromNibble : Nat → Option AFunct
  | 0 => some .X
  | 1 => some .F16
  | 2 => some .F32
  | 3 => some .F64
  | _ => none

/-- Bit width of the values an AFunct operates on. -/
def AFunct.width : AFunct → Nat
  | .X => 64
  | .F16 => 16
  | .F32 => 32
  | .F64 => 64

/-- Register file, the [DWord; 16] array inside struct Registers. -/
def Registers := List Nat

/-- Observable register read, mirroring impl Index u8 for Registers:
index 0 reads as 0 (the reference to the constant 0), any other index
reads the backing slot. -/
def Registers.read (x : Registers) (i : Nat) : Nat :=
  if i = 0 then 0 else List.getD x i 0

/-- Raw register write, mirroring impl IndexMut u8 for Registers:
the backing slot is updated even for index 0 (the source notes that a
write to slot 0 is unobservable through the Index impl). -/
def Registers.write (x : Registers) (i : Nat) (v : Nat) : Registers :=
  List.set x i v

/-- Raw slot read used by the compound read-modify-write statements
x[sp] -= 8 and x[sp] += 8, which go through IndexMut. -/
def Registers.raw (x : Registers) (i : Nat) : Nat :=
  List.getD x i 0

/-- Modelled from the spec: Reg::sp of crate lun_bc; spec section 6.3
fixes sp = x15. -/
def Reg.sp : Nat := 15

/-- Bytecode container, mirroring BcBlob of crate lun_bc: a byte
sequence code, loaded verbatim at PROGRAM_START (spec section 6.2).
Bytes are Nats kept below 256 by well-formed states. -/
structure BcBlob where
  code : List Nat
deriving DecidableEq, Repr

/-- The virtual machine state, mirroring struct Vm field for field. -/
structure Vm where
  /-- general purpose registers -/
  x : List Nat
  /-- register instruction pointer -/
  pc : Nat
  /-- program_end address -/
  program_end : Nat
  /-- stack bottom address -/
  stack_bottom : Nat
  /-- canary end address -/
  canary_end : Nat
  /-- the program -/
  program : BcBlob
  /-- the stack -/
  stack : List Nat
  /-- is execution finished -/
  done : Bool
deriving DecidableEq, Repr

/-- Vm::CANARY_SIZE -/
def Vm.CANARY_SIZE : Nat := 1024

/-- Vm::SPECIAL_END -/
def Vm.SPECIAL_END : Nat := 255

/-- Vm::PROGRAM_START -/
def Vm.PROGRAM_START : Nat := Vm.SPECIAL_END + 1

/-- Vm::XLEN -/
def Vm.XLEN : Nat := 64

/-- Vm::new -/
def Vm.new (stack_size : Nat) (program : BcBlob) : Vm :=
  let program_end := Vm.PROGRAM_START + program.code.length
  let stack_top := program_end + 1
  let stack_bottom := stack_top + stack_size
  let canary_start := stack_bottom + 1
  let canary_end := canary_start + Vm.CANARY_SIZE
  let x := Registers.write (List.replicate 16 0) Reg.sp stack_bottom
  { x := x
    pc := Vm.PROGRAM_START
    program_end := program_end
    stack_bottom := stack_bottom
    canary_end := canary_end
    program := program
    stack := List.replicate stack_size 0
    done := false }

/-- Vm::stack_top -/
def Vm.stack_top (vm : Vm) : Nat := vm.program_end + 1

/-- Vm::canary_start -/
def Vm.canary_start (vm : Vm) : Nat := vm.stack_bottom + 1

/-- Vm::heap_base -/
def Vm.heap_base (vm : Vm) : Nat := vm.canary_end + 1

/-- Little-endian value of a byte list, as uN::from_le_bytes: the head
is the least significant byte. -/
def leVal (bs : List Nat) : Nat :=
  bs.foldr (fun b acc => b + 256 * acc) 0

/-- Low n bytes of a value in little-endian order, as the uN truncating
cast followed by to_le_bytes. -/
def natToLeBytes : Nat → Nat → List Nat
  | 0, _ => []
  | n + 1, v => v % 256 :: natToLeBytes n (v / 256)

/-- Splice bytes bs into list s at offset d, the effect of
copy_from_slice into the subslice s[d..d + bs.length]. -/
def writeBytes (s : List Nat) (d : Nat) (bs : List Nat) : List Nat :=
  s.take d ++ bs ++ s.drop (d + bs.length)

/-- Vm::read. The region checks follow the source if-chain literally;
the extra bounds test before slicing models the implicit panic Rust
raises when the range daddr..daddr+size runs past the backing buffer. -/
def Vm.read (vm : Vm) (addr : Nat) (size : Size) : Except Trap Nat :=
  let usz := size.bytes
  if addr ≤ 255 then
    .error .specialRead
  else if Vm.PROGRAM_START ≤ addr ∧ addr ≤ vm.program_end then
    let daddr := addr - Vm.PROGRAM_START
    if daddr + usz ≤ vm.program.code.length then
      .ok (leVal ((vm.program.code.drop daddr).take usz))
    else
      .error .outOfBounds
  else if vm.stack_top ≤ addr ∧ addr < vm.stack_bottom then
    let daddr := addr - vm.stack_top
    if daddr + usz ≤ vm.stack.length then
      .ok (leVal ((vm.stack.drop daddr).take usz))
    else
      .error .outOfBounds
  else
    .error .unknownAddress

/-- Vm::write. Same region checks as Vm::read except that the program
region is read-only; the value is truncated to the low size bytes by
the uN cast before to_le_bytes. -/
def Vm.write (vm : Vm) (addr : Nat) (size : Size) (value : Nat) :
    Except Trap Vm :=
  let usz := size.bytes
  if addr ≤ 255 then
    .error .specialWrite
  else if Vm.PROGRAM_START ≤ addr ∧ addr ≤ vm.program_end then
    .error .programWrite
  else if vm.stack_top ≤ addr ∧ addr < vm.stack_bottom then
    let daddr := addr - vm.stack_top
    if daddr + usz ≤ vm.stack.length then
      .ok { vm with stack := writeBytes vm.stack daddr (natToLeBytes usz value) }
    else
      .error .outOfBounds
  else
    .error .unknownAddress

/-- Abstraction of the IEEE-754 operations the source performs through
the half / f32 / f64 types. No claim depends on float values, so the
concrete IEEE functions are kept abstract: arith gives the result bits
of an arithmetic opcode at a funct width, cmp the boolean of a
comparison opcode. Any concrete IEEE implementation is one such
record. -/
structure FloatOps where
  arith : Opcode → AFunct → Nat → Nat → Nat
  cmp : Opcode → AFunct → Nat → Nat → Bool

/-- Trivial instantiation of FloatOps used for concrete evaluations. -/
def F0 : FloatOps := ⟨fun _ _ _ _ => 0, fun _ _ _ _ => false⟩

/-- Vm::decode_arithmetic_inst: reads bytes pc+1 and pc+2, funct in the
high nibble of byte pc+1 (unwrap modelled as the invalidFunct trap),
rd in its low nibble, rs1 and rs2 in the nibbles of byte pc+2. -/
def Vm.decodeArith (vm : Vm) : Except Trap (AFunct × Nat × Nat × Nat) :=
  match vm.read (wadd64 vm.pc 1) .Byte with
  | .error t => .error t
  | .ok funct_rd =>
    match vm.read (wadd64 vm.pc 2) .Byte with
    | .error t => .error t
    | .ok rs1_rs2 =>
      match AFunct.fromNibble (funct_rd / 16) with
      | none => .error .invalidFunct
      | some funct => .ok (funct, funct_rd % 16, rs1_rs2 / 16, rs1_rs2 % 16)

/-- Vm::dissassemble_reg_imm16_reg: reads byte pc+1 (two register
nibbles) and the little-endian halfword at pc+2. -/
def Vm.decodeRIR (vm : Vm) : Except Trap (Nat × Nat × Nat) :=
  match vm.read (wadd64 vm.pc 1) .Byte with
  | .error t => .error t
  | .ok reg1_reg2 =>
    match vm.read (wadd64 vm.pc 2) .Half with
    | .error t => .error t
    | .ok imm16 => .ok (reg1_reg2 / 16, reg1_reg2 % 16, imm16)

/-- Body of the inst_impl arithmetic arm for one opcode: fop is the
integer (funct X) operation, wrapping or trapping like the source
wrapping_* call; float functs go through the FloatOps abstraction with
the source's truncating from_bits casts and to_bits widths. -/
def Vm.instArith (vm : Vm) (F : FloatOps) (op : Opcode)
    (fop : Nat → Nat → Except Trap Nat) : Except Trap Vm :=
  match vm.decodeArith with
  | .error t => .error t
  | .ok (funct, rd, rs1, rs2) =>
    let vm := { vm with pc := wadd64 vm.pc 3 }
    match funct with
    | .X =>
      match fop (Registers.read vm.x rs1) (Registers.read vm.x rs2) with
      | .error t => .error t
      | .ok r => .ok { vm with x := Registers.write vm.x rd r }
    | f =>
      let a := Registers.read vm.x rs1 % 2 ^ f.width
      let b := Registers.read vm.x rs2 % 2 ^ f.width
      .ok { vm with x := Registers.write vm.x rd (F.arith op f a b % 2 ^ f.width) }

/-- Body of the inst_impl comparison arm for one opcode: cmpop is the
integer comparison on the full 64-bit register values; float functs go
through the FloatOps abstraction. The boolean is stored as 0 or 1. -/
def Vm.instCmp (vm : Vm) (F : FloatOps) (op : Opcode)
    (cmpop : Nat → Nat → Bool) : Except Trap Vm :=
  match vm.decodeArith with
  | .error t => .error t
  | .ok (funct, rd, rs1, rs2) =>
    let vm := { vm with pc := wadd64 vm.pc 3 }
    match funct with
    | .X =>
      let r := if cmpop (Registers.read vm.x rs1) (Registers.read vm.x rs2) then 1 else 0
      .ok { vm with x := Registers.write vm.x rd r }
    | f =>
      let a := Registers.read vm.x rs1 % 2 ^ f.width
      let b := Registers.read vm.x rs2 % 2 ^ f.width
      let r := if F.cmp op f a b then 1 else 0
      .ok { vm with x := Registers.write vm.x rd r }

/-- Body of the inst_impl bitwise arm: funct must be X, any float funct
is the bitwiseOnFloat panic. -/
def Vm.instBitwise (vm : Vm) (bop : Nat → Nat → Nat) : Except Trap Vm :=
  match vm.decodeArith with
  | .error t => .error t
  | .ok (funct, rd, rs1, rs2) =>
    let vm := { vm with pc := wadd64 vm.pc 3 }
    match funct with
    | .X =>
      let r := bop (Registers.read vm.x rs1) (Registers.read vm.x rs2)
      .ok { vm with x := Registers.write vm.x rd r }
    | _ => .error .bitwiseOnFloat

/-- Body of the inst_impl load arm. Note the effective-address cast: in
the source the u16 offset is cast with offset as i64, which
zero-extends (u16 to i64 is a widening unsigned cast), so the
subsequent wrapping_add_signed always adds a value in [0, 65535]. -/
def Vm.instLoad (vm : Vm) (size : Size) : Except Trap Vm :=
  match vm.decodeRIR with
  | .error t => .error t
  | .ok (rd, rs, offset) =>
    let vm := { vm with pc := wadd64 vm.pc 4 }
    match vm.read (wadd64 (Registers.read vm.x rs) offset) size with
    | .error t => .error t
    | .ok v => .ok { vm with x := Registers.write vm.x rd v }

/-- Body of the inst_impl store arm; same zero-extending offset cast as
the load arm. -/
def Vm.instStore (vm : Vm) (size : Size) : Except Trap Vm :=
  match vm.decodeRIR with
  | .error t => .error t
  | .ok (rs1, rs2, offset) =>
    let vm := { vm with pc := wadd64 vm.pc 4 }
    vm.write (wadd64 (Registers.read vm.x rs1) offset) size (Registers.read vm.x rs2)

/-- Body of the Beq/Bne/Blt/Bge arms: decode RIR, advance pc by 4, and
if the condition on the two full 64-bit register values holds, add the
imm16 to pc as an unsigned value (offset as u64). -/
def Vm.instBranch (vm : Vm) (cond : Nat → Nat → Bool) : Except Trap Vm :=
  match vm.decodeRIR with
  | .error t => .error t
  | .ok (rs1, rs2, offset) =>
    let vm := { vm with pc := wadd64 vm.pc 4 }
    if cond (Registers.read vm.x rs1) (Registers.read vm.x rs2) then
      .ok { vm with pc := wadd64 vm.pc offset }
    else
      .ok vm

/-- Body of the LiB/LiH/LiW/LiD arms: rd is the low nibble of byte
pc+1, the immediate is read at pc+2 with the arm's size, pc advances by
the arm's total length, and rd receives the zero-extended immediate. -/
def Vm.instLi (vm : Vm) (size : Size) (len : Nat) : Except Trap Vm :=
  match vm.read (wadd64 vm.pc 1) .Byte with
  | .error t => .error t
  | .ok b1 =>
    let rd := b1 % 16
    match vm.read (wadd64 vm.pc 2) size with
    | .error t => .error t
    | .ok imm =>
      let vm := { vm with pc := wadd64 vm.pc len }
      .ok { vm with x := Registers.write vm.x rd imm }

/-- Vm::step: one fetch-decode-dispatch-execute round, trapping where
the source panics. Each arm mirrors the corresponding match arm of the
source step function. -/
def Vm.step (F : FloatOps) (vm : Vm) : Except Trap Vm :=
  match vm.read vm.pc .Byte with
  | .error t => .error t
  | .ok b =>
    match Opcode.fromByte b with
    | none => .error .invalidOpcode
    | some .Add => vm.instArith F .Add (fun a b => .ok (wadd64 a b))
    | some .Sub => vm.instArith F .Sub (fun a b => .ok (wsub64 a b))
    | some .Mul => vm.instArith F .Mul (fun a b => .ok (a * b % 2 ^ 64))
    | some .Div => vm.instArith F .Div
        (fun a b => if b = 0 then .error .divByZero else .ok (a / b))
    | some .Rem => vm.instArith F .Rem
        (fun a b => if b = 0 then .error .divByZero else .ok (a % b))
    | some .Clt => vm.instCmp F .Clt (fun a b => a < b)
    | some .Cge => vm.instCmp F .Cge (fun a b => b ≤ a)
    | some .Ceq => vm.instCmp F .Ceq (fun a b => a == b)
    | some .Cne => vm.instCmp F .Cne (fun a b => !(a == b))
    | some .And => vm.instBitwise Nat.land
    | some .Or => vm.instBitwise Nat.lor
    | some .Xor => vm.instBitwise Nat.xor
    | some .Call =>
      match vm.read (wadd64 vm.pc 1) .Word with
      | .error t => .error t
      | .ok imm32 =>
        let vm := { vm with pc := wadd64 vm.pc 5 }
        let sp' := wsub64 (Registers.raw vm.x Reg.sp) (Vm.XLEN / 8)
        let vm := { vm with x := Registers.write vm.x Reg.sp sp' }
        match vm.write (Registers.read vm.x Reg.sp) .Double (wadd64 vm.pc 5) with
        | .error t => .error t
        | .ok vm => .ok { vm with pc := imm32 }
    | some .Ret =>
      let vm := { vm with pc := wadd64 vm.pc 1 }
      match vm.read (Registers.read vm.x Reg.sp) .Double with
      | .error t => .error t
      | .ok ret =>
        let vm := { vm with pc := ret }
        let sp' := wadd64 (Registers.raw vm.x Reg.sp) (Vm.XLEN / 8)
        .ok { vm with x := Registers.write vm.x Reg.sp sp' }
    | some .Jze =>
      match vm.decodeRIR with
      | .error t => .error t
      | .ok (rs1, rs2, offset) =>
        let vm := { vm with pc := wadd64 vm.pc 4 }
        if Registers.read vm.x rs2 = 0 then
          let vm := { vm with pc := wadd64 vm.pc offset }
          .ok { vm with pc := wadd64 vm.pc (Registers.read vm.x rs1) }
        else
          .ok vm
    | some .Beq => vm.instBranch (fun a b => a == b)
    | some .Bne => vm.instBranch (fun a b => !(a == b))
    | some .Blt => vm.instBranch (fun a b => a < b)
    | some .Bge => vm.instBranch (fun a b => b ≤ a)
    | some .LdB => vm.instLoad .Byte
    | some .LdH => vm.instLoad .Half
    | some .LdW => vm.instLoad .Word
    | some .LdD => vm.instLoad .Double
    | some .StB => vm.instStore .Byte
    | some .StH => vm.instStore .Half
    | some .StW => vm.instStore .Word
    | some .StD => vm.instStore .Double
    | some .LiB => vm.instLi .Byte 3
    | some .LiH => vm.instLi .Half 4
    | some .LiW => vm.instLi .Word 6
    | some .LiD => vm.instLi .Double 10
    | some .Mov =>
      match vm.read (wadd64 vm.pc 1) .Byte with
      | .error t => .error t
      | .ok rd_rs =>
        let rd := rd_rs / 16
        let rs := rd_rs % 16
        let vm := { vm with pc := wadd64 vm.pc 2 }
        .ok { vm with x := Registers.write vm.x rd (Registers.read vm.x rs) }
    | some .Push =>
      match vm.read (wadd64 vm.pc 1) .Byte with
      | .error t => .error t
      | .ok b1 =>
        let rs := b1 % 16
        let vm := { vm with pc := wadd64 vm.pc 2 }
        let sp' := wsub64 (Registers.raw vm.x Reg.sp) (Vm.XLEN / 8)
        let vm := { vm with x := Registers.write vm.x Reg.sp sp' }
        vm.write (Registers.read vm.x Reg.sp) .Double (Registers.read vm.x rs)
    | some .Pop =>
      match vm.read (wadd64 vm.pc 1) .Byte with
      | .error t => .error t
      | .ok b1 =>
        let rd := b1 % 16
        let vm := { vm with pc := wadd64 vm.pc 2 }
        match vm.read (Registers.read vm.x Reg.sp) .Double with
        | .error t => .error t
        | .ok v =>
          let vm := { vm with x := Registers.write vm.x rd v }
          let sp' := wadd64 (Registers.raw vm.x Reg.sp) (Vm.XLEN / 8)
          .ok { vm with x := Registers.write vm.x Reg.sp sp' }

/-- Vm::run, translated literally: the loop body unconditionally breaks
after the first step call, so at most one instruction executes. -/
def Vm.run (F : FloatOps) (vm : Vm) : Except Trap Vm :=
  if vm.done then .ok vm else vm.step F

/-- Iterated step, the embedder calling step n times in sequence
(spec section 5: run performs a sequence of step calls). -/
def stepN (F : FloatOps) (vm : Vm) : Nat → Except Trap Vm
  | 0 => .ok vm
  | n + 1 =>
    match vm.step F with
    | .error t => .error t
    | .ok vm' => stepN F vm' n

/-- Decidable equality on Except, used to evaluate concrete runs. -/
instance {ε α : Type} [DecidableEq ε] [DecidableEq α] :
    DecidableEq (Except ε α) := fun a b =>
  match a, b with
  | .error e, .error f =>
    if h : e = f then .isTrue (by rw [h])
    else .isFalse (by intro hh; cases hh; exact h rfl)
  | .error _, .ok _ => .isFalse (by intro hh; cases hh)
  | .ok _, .error _ => .isFalse (by intro hh; cases hh)
  | .ok v, .ok w =>
    if h : v = w then .isTrue (by rw [h])
    else .isFalse (by intro hh; cases hh; exact h rfl)

/-- Observer: does an Except carry a success value. -/
def isOkE (e : Except Trap Vm) : Bool :=
  match e with
  | .ok _ => true
  | .error _ => false

/-- Observer: the success state of an Except, or a default state. -/
def okState (e : Except Trap Vm) (d : Vm) : Vm :=
  match e with
  | .ok v => v
  | .error _ => d

/-- Well-formedness of a Vm state: the cached region bounds agree with
the backing buffers, as Vm::new establishes and step preserves. -/
def Vm.wf (vm : Vm) : Prop :=
  vm.program_end = Vm.PROGRAM_START + vm.program.code.length ∧
  vm.stack_bottom = vm.stack_top + vm.stack.length

/-- Classifies the trap constructors that realize the spec's
AccessViolation (spec section 7: read/write into the special region,
canary, unmapped gap, or a straddling range); the remaining memory trap
programWrite realizes WriteToReadOnly. -/
def Trap.isAV : Trap → Bool
  | .specialRead => true
  | .specialWrite => true
  | .unknownAddress => true
  | .outOfBounds => true
  | _ => false

/-- Observer: a read result that is an AccessViolation-class trap. -/
def isAVRead (e : Except Trap Nat) : Bool :=
  match e with
  | .error t => t.isAV
  | .ok _ => false

theorem wadd64_eq {a b : Nat} (h : a + b < 2 ^ 64) : wadd64 a b = a + b := by
  simpa [wadd64] using Nat.mod_eq_of_lt h

theorem wsub64_eq_sub {a b : Nat} (hba : b ≤ a) (ha : a < 2 ^ 64)
    (hb : b < 2 ^ 64) : wsub64 a b = a - b := by
  unfold wsub64
  rw [Nat.mod_eq_of_lt hb]
  have h1 : a + (2 ^ 64 - b) = (a - b) + 2 ^ 64 := by omega
  rw [h1, Nat.add_mod_right]
  exact Nat.mod_eq_of_lt (by omega)

theorem natToLeBytes_length (n v : Nat) : (natToLeBytes n v).length = n := by
  induction n generalizing v with
  | zero => rfl
  | succ k ih => simp [natToLeBytes, ih]

theorem natToLeBytes_lt (n v : Nat) : ∀ b ∈ natToLeBytes n v, b < 256 := by
  induction n generalizing v with
  | zero => intro b hb; cases hb
  | succ k ih =>
    intro b hb
    rcases hb with _ | hb
    · exact Nat.mod_lt _ (by omega)
    · exact ih _ _ (by assumption)

theorem leVal_natToLeBytes (n v : Nat) :
    leVal (natToLeBytes n v) = v % 256 ^ n := by
  induction n generalizing v with
  | zero => simp [natToLeBytes, leVal, Nat.mod_one]
  | succ k ih =>
    show v % 256 + 256 * leVal (natToLeBytes k (v / 256)) = v % 256 ^ (k + 1)
    rw [ih]
    have h256 : 0 < 256 := by omega
    have hmm : 256 * (v / 256 % 256 ^ k) = 256 * (v / 256) % (256 * 256 ^ k) :=
      (Nat.mul_mod_mul_left 256 (v / 256) (256 ^ k)).symm
    have hpow : 256 ^ (k + 1) = 256 * 256 ^ k := by ring
    have hlt : v % 256 + 256 * (v / 256 % 256 ^ k) < 256 * 256 ^ k := by
      have h1 : v % 256 < 256 := Nat.mod_lt _ h256
      have h2 : v / 256 % 256 ^ k < 256 ^ k := Nat.mod_lt _ (Nat.pos_pow_of_pos k h256)
      calc v % 256 + 256 * (v / 256 % 256 ^ k)
          ≤ 255 + 256 * (256 ^ k - 1) := by
            apply Nat.add_le_add (by omega)
            exact Nat.mul_le_mul_left _ (by omega)
        _ < 256 * 256 ^ k := by
            have : 1 ≤ 256 ^ k := Nat.pos_pow_of_pos k h256
            omega
    rw [hpow]
    conv_rhs => rw [← Nat.div_add_mod v 256]
    rw [Nat.add_comm (256 * (v / 256)) (v % 256)]
    rw [Nat.add_mod, Nat.mul_mod_mul_left]
    have hvmod : v % 256 % (256 * 256 ^ k) = v % 256 := by
      apply Nat.mod_eq_of_lt
      have : 1 ≤ 256 ^ k := Nat.pos_pow_of_pos k h256
      omega
    rw [hvmod, Nat.mod_eq_of_lt hlt]

theorem pow256_eq_pow2 (n : Nat) : 256 ^ n = 2 ^ (8 * n) := by
  rw [show (256 : Nat) = 2 ^ 8 by norm_num, ← pow_mul]

theorem natToLeBytes_drop (n v i : Nat) :
    (natToLeBytes n v).drop i = natToLeBytes (n - i) (v / 256 ^ i) := by
  induction i generalizing n v with
  | zero => simp
  | succ k ih =>
    cases n with
    | zero => simp [natToLeBytes]
    | succ m =>
      show (natToLeBytes m (v / 256)).drop k = _
      rw [ih]
      congr 1
      · omega
      · rw [Nat.div_div_eq_div_mul, pow_succ]
        ring_nf

theorem writeBytes_length (s bs : List Nat) (d : Nat)
    (h : d + bs.length ≤ s.length) :
    (writeBytes s d bs).length = s.length := by
  simp [writeBytes]
  omega

theorem writeBytes_slice (s bs : List Nat) (d : Nat) (h : d ≤ s.length) :
    ((writeBytes s d bs).drop d).take bs.length = bs := by
  unfold writeBytes
  have hlen : (s.take d).length = d := by simp; omega
  rw [List.append_assoc, List.drop_left' hlen, List.take_left]

theorem writeBytes_slice_n (s bs : List Nat) (d n : Nat) (h : d ≤ s.length)
    (hn : bs.length = n) :
    ((writeBytes s d bs).drop d).take n = bs := by
  rw [← hn]
  exact writeBytes_slice s bs d h

theorem writeBytes_drop (s bs : List Nat) (d i : Nat) (h : d ≤ s.length) :
    (writeBytes s d bs).drop (d + i) = (bs ++ s.drop (d + bs.length)).drop i := by
  unfold writeBytes
  rw [List.append_assoc]
  have hlen : (s.take d).length = d := by simp; omega
  calc List.drop (d + i) (s.take d ++ (bs ++ s.drop (d + bs.length)))
      = List.drop ((s.take d).length + i)
          (s.take d ++ (bs ++ s.drop (d + bs.length))) := by rw [hlen]
    _ = List.drop i (bs ++ s.drop (d + bs.length)) := List.drop_append i

theorem register_read_write (x : Registers) (i j v : Nat) :
    Registers.read (Registers.write x i v) j =
      if j = 0 then 0
      else if j = i ∧ i < List.length x then v
      else Registers.read x j := by
  unfold Registers.read Registers.write
  by_cases hj : j = 0
  · simp [hj]
  · simp only [hj, if_false]
    by_cases hji : j = i
    · subst hji
      by_cases hlen : j < List.length x
      · simp [hlen, List.getD_eq_getElem?_getD, List.getElem?_set]
      · simp only [hlen, and_false, if_false]
        rw [List.getD_eq_getElem?_getD, List.getD_eq_getElem?_getD,
          List.getElem?_set]
        simp [hlen, List.getElem?_eq_none (Nat.le_of_not_lt hlen)]
    · have : ¬ (j = i ∧ i < List.length x) := fun hc => hji hc.1
      simp only [this, if_false]
      rw [List.getD_eq_getElem?_getD, List.getD_eq_getElem?_getD,
        List.getElem?_set_ne (fun h => hji h.symm)]

theorem register_raw_write_ne (x : Registers) (i j v : Nat) (h : j ≠ i) :
    Registers.raw (Registers.write x i v) j = Registers.raw x j := by
  unfold Registers.raw Registers.write
  rw [List.getD_eq_getElem?_getD, List.getD_eq_getElem?_getD,
    List.getElem?_set_ne (fun hh => h hh.symm)]

theorem register_raw_write_eq (x : Registers) (i v : Nat)
    (h : i < List.length x) :
    Registers.raw (Registers.write x i v) i = v := by
  unfold Registers.raw Registers.write
  rw [List.getD_eq_getElem?_getD, List.getElem?_set]
  simp [h]

theorem register_length_write (x : Registers) (i v : Nat) :
    List.length (Registers.write x i v) = List.length x :=
  List.length_set x i v

theorem read_pc_irrel (vm : Vm) (p addr : Nat) (s : Size) :
    Vm.read { vm with pc := p } addr s = vm.read addr s := rfl

theorem register_read_write_eq (x : Registers) (i v : Nat) (hi0 : i ≠ 0)
    (hl : i < List.length x) :
    Registers.read (Registers.write x i v) i = v := by
  rw [register_read_write, if_neg hi0, if_pos ⟨rfl, hl⟩]

theorem register_read_write_ne (x : Registers) (i j v : Nat) (hij : j ≠ i) :
    Registers.read (Registers.write x i v) j = Registers.read x j := by
  rw [register_read_write]
  by_cases hj0 : j = 0
  · simp [hj0, Registers.read]
  · rw [if_neg hj0, if_neg (fun hc => hij hc.1)]

/-- Concrete machine for C1: the program is a single Call 0x100
(bytes 12, 0, 1, 0, 0) with an 8-byte stack, executed at pc = 256.
Then program_end = 261, stack_top = 262, stack_bottom = sp = 270. -/
def c1vm : Vm := Vm.new 8 ⟨[12, 0, 1, 0, 0]⟩

/-- C1: the claim says Call stores the address of the next instruction,
pc_before + 5 = 261, at [sp]. Executing the Call at pc_before = 256
succeeds, decrements sp by 8 to 262 and sets pc = imm32 = 256 as
claimed, but the Double stored at [sp] is 266 = pc_before + 10, because
the source writes self.pc + 5 after pc was already advanced by 5. -/
theorem c1_call_stores_pc_plus_10 :
    isOkE (Vm.step F0 c1vm) = true ∧
    (okState (Vm.step F0 c1vm) c1vm).pc = 256 ∧
    Registers.read (okState (Vm.step F0 c1vm) c1vm).x 15 = 262 ∧
    (okState (Vm.step F0 c1vm) c1vm).read 262 Size.Double = .ok (256 + 10) ∧
    (256 + 10 : Nat) ≠ 256 + 5 := by
  decide

/-- Concrete machine for C2: program is LdB r1, r2, 0x8000 (bytes 19,
0x12, 0x00, 0x80), program_end = 260, stack_top = 261, stack region
[261, 269), and register x2 holds 33029 = stack_top + 32768. -/
def c2vm : Vm :=
  { x := [0, 0, 33029, 0, 0, 0, 0, 0, 0, 0, 0, 0, 0, 0, 0, 269]
    pc := 256
    program_end := 260
    stack_bottom := 269
    canary_end := 1294
    program := ⟨[19, 0x12, 0x00, 0x80]⟩
    stack := List.replicate 8 0
    done := false }

/-- C2: with imm16 = 0x8000 (high bit set) the claim puts the effective
address at [rs] + (0x8000 - 65536) mod 2^64 = 33029 - 32768 = 261, the
valid stack_top, so the load should succeed and read 0. The code
instead zero-extends the u16 offset (offset as i64 widens unsigned), so
the effective address is 33029 + 32768 = 65797, an unmapped address,
and the load traps. -/
theorem c2_load_offset_zero_extended :
    (33029 + (2 ^ 64 - 32768)) % 2 ^ 64 = 261 ∧
    c2vm.read 261 Size.Byte = .ok 0 ∧
    wadd64 33029 0x8000 = 65797 ∧
    Vm.step F0 c2vm = .error .unknownAddress := by
  refine ⟨by norm_num, by decide, by decide, by decide⟩

/-- Concrete machine for C3: the program is LiB r1, 5; LiB r2, 7. -/
def c3vm : Vm := Vm.new 8 ⟨[27, 1, 5, 27, 2, 7]⟩

/-- C3: the claim says run invokes step until done is set. On this
two-instruction program run returns after a single successful step
(the loop body ends in an unconditional break): done is still false,
pc has advanced by one instruction only, the second instruction has not
executed (x2 = 0), and another step is still possible. -/
theorem c3_run_single_step :
    isOkE (Vm.run F0 c3vm) = true ∧
    (okState (Vm.run F0 c3vm) c3vm).done = false ∧
    (okState (Vm.run F0 c3vm) c3vm).pc = 259 ∧
    Registers.read (okState (Vm.run F0 c3vm) c3vm).x 1 = 5 ∧
    Registers.read (okState (Vm.run F0 c3vm) c3vm).x 2 = 0 ∧
    isOkE (Vm.step F0 (okState (Vm.run F0 c3vm) c3vm)) = true := by
  decide

/-- Concrete machine for C4: the program is LiD x15, 0, loading the
immediate 0 straight into the stack pointer. -/
def c4vm : Vm := Vm.new 16 ⟨[30, 15, 0, 0, 0, 0, 0, 0, 0, 0]⟩

/-- C4: the claim says no instruction can leave sp outside
[stack_top, stack_bottom] = [267, 283]. Executing LiD x15, 0 succeeds
and leaves sp = 0, far below stack_top; the code performs no bounds
check on sp. -/
theorem c4_sp_escapes_range :
    isOkE (Vm.step F0 c4vm) = true ∧
    Registers.read (okState (Vm.step F0 c4vm) c4vm).x 15 = 0 ∧
    c4vm.stack_top = 267 ∧
    c4vm.stack_bottom = 283 ∧
    ¬ (267 ≤ (0 : Nat)) := by
  decide

/-- C6: for every step that succeeds, the observable value of x0 is 0
(the Index impl returns the constant 0 for index 0), and a raw write to
slot 0 (the IndexMut impl does update the backing slot) never changes
any observable register value. -/
theorem c6_zero_register (F : FloatOps) (vm vm' : Vm) :
    (vm.step F = .ok vm' → Registers.read vm'.x 0 = 0) ∧
    (∀ x v i, Registers.read (Registers.write x 0 v) i = Registers.read x i) := by
  constructor
  · intro _
    simp [Registers.read]
  · intro x v i
    rw [register_read_write]
    by_cases hi : i = 0 <;> simp [hi, Registers.read]

/-- Concrete machine for the C6 witness: LiB x0, 9 writes the backing
slot of the zero register. -/
def c6vm : Vm := Vm.new 8 ⟨[27, 0, 9]⟩

/-- Post-state of the C6 witness step. -/
def c6res : Vm := okState (Vm.step F0 c6vm) c6vm

/-- Witness for C6: after executing LiB x0, 9 the observable x0 is
still 0 (even though the backing slot now holds 9), and a raw write to
slot 0 of a concrete register file is observably invisible. -/
theorem c6_witness :
    Registers.read c6res.x 0 = 0 ∧
    Registers.read (Registers.write [1, 2, 3] 0 7) 1 =
      Registers.read [1, 2, 3] 1 ∧
    List.getD c6res.x 0 0 = 9 :=
  ⟨(c6_zero_register F0 c6vm c6res).1 rfl,
   (c6_zero_register F0 c6vm c6res).2 [1, 2, 3] 7 1,
   by decide⟩

/-- Concrete machine for the C7 counterexample: the program is
LiD x0, 1; Push x0; Pop x1 with a 16-byte stack. -/
def c7vm : Vm := Vm.new 16 ⟨[30, 0, 1, 0, 0, 0, 0, 0, 0, 0, 32, 0, 33, 1]⟩

/-- C7 counterexample: the claim quantifies over any register r; taking
r = x0 (the zero register), v = 1 and r' = x1, the sequence
LiD x0, 1; Push x0; Pop x1 executes successfully but leaves x1 = 0,
not v = 1 (LiD to x0 is observably discarded, so Push pushes 0). sp is
restored to 287 = stack_bottom as the claim says, but r' = v fails. -/
theorem c7_counterexample :
    isOkE (stepN F0 c7vm 3) = true ∧
    Registers.read (okState (stepN F0 c7vm 3) c7vm).x 1 = 0 ∧
    (0 : Nat) ≠ 1 ∧
    Registers.read (okState (stepN F0 c7vm 3) c7vm).x 15 = 287 ∧
    c7vm.stack_bottom = 287 := by
  decide

/-- C8: in a well-formed state, any read whose range [addr, addr+S)
is not entirely inside the program region or entirely inside the stack
region traps with an AccessViolation-class trap (special region,
unmapped gap, canary/heap, or straddling range), and any write whose
address falls in the program region traps with WriteToReadOnly
(the programWrite panic site). -/
theorem c8_trap_totality (vm : Vm) (addr : Nat) (size : Size) (v : Nat)
    (hwf : vm.wf)
    (hnr : ¬ ((Vm.PROGRAM_START ≤ addr ∧
          addr + size.bytes ≤ Vm.PROGRAM_START + vm.program.code.length) ∨
        (vm.stack_top ≤ addr ∧ addr + size.bytes ≤ vm.stack_bottom))) :
    isAVRead (vm.read addr size) = true ∧
    (∀ waddr, Vm.PROGRAM_START ≤ waddr →
        waddr < Vm.PROGRAM_START + vm.program.code.length →
        vm.write waddr size v = .error .programWrite) := by
  obtain ⟨hpe, hsb⟩ := hwf
  simp only [Vm.PROGRAM_START, Vm.SPECIAL_END, Vm.stack_top] at hpe hsb hnr
  constructor
  · unfold Vm.read
    simp only [Vm.PROGRAM_START, Vm.SPECIAL_END, Vm.stack_top]
    split_ifs with h1 h2 h3 h4 h5
    · rfl
    · exfalso
      apply hnr
      left
      omega
    · rfl
    · exfalso
      apply hnr
      right
      omega
    · rfl
    · rfl
  · intro waddr hw1 hw2
    simp only [Vm.PROGRAM_START, Vm.SPECIAL_END] at hw1 hw2
    unfold Vm.write
    simp only [Vm.PROGRAM_START, Vm.SPECIAL_END]
    rw [if_neg (by omega), if_pos (by omega)]

/-- Concrete machine for the C8 witness: one-byte program, 8-byte
stack; address 0 is in the special region, address 256 in the program
region. -/
def c8vm : Vm := Vm.new 8 ⟨[0]⟩

/-- Witness for C8: reading address 0 (special region) is an
AccessViolation-class trap, and writing address 256 (program region)
traps with WriteToReadOnly. -/
theorem c8_witness :
    isAVRead (c8vm.read 0 Size.Byte) = true ∧
    c8vm.write 256 Size.Byte 7 = .error .programWrite :=
  ⟨(c8_trap_totality c8vm 0 .Byte 7 ⟨rfl, rfl⟩ (by decide)).1,
   (c8_trap_totality c8vm 0 .Byte 7 ⟨rfl, rfl⟩ (by decide)).2 256
     (by decide) (by decide)⟩

/-- C9: in a well-formed state, writing value v with width S at an
address whose whole range [addr, addr+S) lies inside the stack region
succeeds, reading the same address at the same width returns v reduced
to its low S bytes, and the individual bytes sit in little-endian
order: the byte at addr + i is v / 256^i % 256. -/
theorem c9_write_read_roundtrip (vm : Vm) (addr : Nat) (size : Size) (v : Nat)
    (hwf : vm.wf) (h1 : vm.stack_top ≤ addr)
    (h2 : addr + size.bytes ≤ vm.stack_bottom) :
    isOkE (vm.write addr size v) = true ∧
    (okState (vm.write addr size v) vm).read addr size =
      .ok (v % 2 ^ (8 * size.bytes)) ∧
    (∀ i, i < size.bytes →
      (okState (vm.write addr size v) vm).read (addr + i) Size.Byte =
        .ok (v / 256 ^ i % 256)) := by
  obtain ⟨hpe, hsb⟩ := hwf
  simp only [Vm.PROGRAM_START, Vm.SPECIAL_END, Vm.stack_top] at hpe hsb h1 h2
  have hsz : 1 ≤ size.bytes := by cases size <;> simp [Size.bytes]
  have hdle : addr - (vm.program_end + 1) + size.bytes ≤ vm.stack.length := by
    omega
  have hw : vm.write addr size v =
      .ok { vm with stack := writeBytes vm.stack (addr - (vm.program_end + 1)) (natToLeBytes size.bytes v) } := by
    unfold Vm.write
    simp only [Vm.PROGRAM_START, Vm.SPECIAL_END, Vm.stack_top]
    rw [if_neg (by omega), if_neg (by rintro ⟨ha, hb⟩; omega),
      if_pos (by constructor <;> omega), if_pos hdle]
  have hlen : (writeBytes vm.stack (addr - (vm.program_end + 1))
      (natToLeBytes size.bytes v)).length = vm.stack.length := by
    rw [writeBytes_length]
    rw [natToLeBytes_length]
    exact hdle
  refine ⟨by rw [hw]; rfl, ?_, ?_⟩
  · rw [hw]
    simp only [okState]
    unfold Vm.read
    dsimp only
    simp only [Vm.PROGRAM_START, Vm.SPECIAL_END, Vm.stack_top]
    rw [if_neg (by omega), if_neg (by rintro ⟨ha, hb⟩; omega),
      if_pos (by constructor <;> omega)]
    simp only [hlen]
    rw [if_pos hdle]
    congr 1
    rw [writeBytes_slice_n _ _ _ _ (by omega) (natToLeBytes_length _ _)]
    rw [leVal_natToLeBytes, pow256_eq_pow2]
  · intro i hi
    rw [hw]
    simp only [okState]
    unfold Vm.read
    dsimp only
    simp only [Vm.PROGRAM_START, Vm.SPECIAL_END, Vm.stack_top]
    rw [if_neg (by omega), if_neg (by rintro ⟨ha, hb⟩; omega),
      if_pos (by constructor <;> omega)]
    simp only [hlen]
    rw [if_pos (by simp [Size.bytes]; omega)]
    congr 1
    have hofs : addr + i - (vm.program_end + 1) =
        (addr - (vm.program_end + 1)) + i := by omega
    rw [hofs, writeBytes_drop _ _ _ _ (by omega)]
    have hsplit : natToLeBytes size.bytes v ++
        vm.stack.drop ((addr - (vm.program_end + 1)) +
          (natToLeBytes size.bytes v).length) =
        (natToLeBytes size.bytes v).take i ++
          ((natToLeBytes size.bytes v).drop i ++
            vm.stack.drop ((addr - (vm.program_end + 1)) +
              (natToLeBytes size.bytes v).length)) := by
      rw [← List.append_assoc, List.take_append_drop]
    rw [hsplit, List.drop_left' (by rw [List.length_take, natToLeBytes_length]; omega)]
    rw [natToLeBytes_drop]
    obtain ⟨k, hk⟩ : ∃ k, size.bytes - i = k + 1 := ⟨size.bytes - i - 1, by omega⟩
    rw [hk]
    show leVal (List.take 1 ((v / 256 ^ i % 256 ::
      natToLeBytes k (v / 256 ^ i / 256)) ++ _)) = _
    simp [leVal]

/-- Concrete machine for the C9 witness: empty program, 16-byte stack,
stack region [257, 273). -/
def c9vm : Vm := Vm.new 16 ⟨[]⟩

/-- Witness for C9: writing the Double 0x0123456789ABCDEF at 257 and
reading it back returns the value, and the byte at 258 is the second
least significant byte (little-endian). -/
theorem c9_witness :
    isOkE (c9vm.write 257 Size.Double 81985529216486895) = true ∧
    (okState (c9vm.write 257 Size.Double 81985529216486895) c9vm).read 257
      Size.Double = .ok (81985529216486895 % 2 ^ (8 * Size.Double.bytes)) ∧
    (okState (c9vm.write 257 Size.Double 81985529216486895) c9vm).read 258
      Size.Byte = .ok (81985529216486895 / 256 ^ 1 % 256) :=
  ⟨(c9_write_read_roundtrip c9vm 257 .Double 81985529216486895 ⟨rfl, rfl⟩
      (by decide) (by decide)).1,
   (c9_write_read_roundtrip c9vm 257 .Double 81985529216486895 ⟨rfl, rfl⟩
      (by decide) (by decide)).2.1,
   (c9_write_read_roundtrip c9vm 257 .Double 81985529216486895 ⟨rfl, rfl⟩
      (by decide) (by decide)).2.2 1 (by decide)⟩

/-- C10: executing Pop with destination nibble 0 (the zero register) in
a 16-register state still performs the memory read at [sp] — if that
read traps, the step traps with the same trap — and on success still
increments sp by 8 and advances pc by 2, while every observable
register other than sp is unchanged and x0 still reads 0: the popped
value is observably discarded. -/
theorem c10_pop_zero_register (F : FloatOps) (vm : Vm) (b1 : Nat)
    (hx : vm.x.length = 16)
    (h0 : vm.read vm.pc Size.Byte = .ok 33)
    (h1 : vm.read (wadd64 vm.pc 1) Size.Byte = .ok b1)
    (hz : b1 % 16 = 0) :
    (∀ t, vm.read (Registers.read vm.x 15) Size.Double = .error t →
        vm.step F = .error t) ∧
    (∀ v, vm.read (Registers.read vm.x 15) Size.Double = .ok v →
        isOkE (vm.step F) = true ∧
        Registers.read (okState (vm.step F) vm).x 15 =
          wadd64 (Registers.read vm.x 15) 8 ∧
        (∀ i, i ≠ 15 → Registers.read (okState (vm.step F) vm).x i =
          Registers.read vm.x i) ∧
        Registers.read (okState (vm.step F) vm).x 0 = 0 ∧
        (okState (vm.step F) vm).pc = wadd64 vm.pc 2 ∧
        (okState (vm.step F) vm).stack = vm.stack) := by
  have hsp : Registers.read vm.x 15 = Registers.raw vm.x 15 := by
    simp [Registers.read, Registers.raw]
  constructor
  · intro t ht
    unfold Vm.step
    rw [h0]
    simp only [show Opcode.fromByte 33 = some Opcode.Pop from rfl]
    rw [h1]
    simp only [hz, Reg.sp]
    rw [read_pc_irrel, ht]
  · intro v hv
    have hstep : vm.step F = .ok { vm with
        pc := wadd64 vm.pc 2,
        x := Registers.write (Registers.write vm.x 0 v) 15
          (wadd64 (Registers.raw (Registers.write vm.x 0 v) 15) (Vm.XLEN / 8)) } := by
      unfold Vm.step
      rw [h0]
      simp only [show Opcode.fromByte 33 = some Opcode.Pop from rfl]
      rw [h1]
      simp only [hz, Reg.sp]
      rw [read_pc_irrel, hv]
    rw [hstep]
    have hraw : Registers.raw (Registers.write vm.x 0 v) 15 =
        Registers.raw vm.x 15 :=
      register_raw_write_ne vm.x 0 15 v (by omega)
    have hl : (15 : Nat) < List.length (Registers.write vm.x 0 v) := by
      rw [register_length_write, hx]
      omega
    refine ⟨rfl, ?_, ?_, ?_, rfl, rfl⟩
    · show Registers.read (Registers.write (Registers.write vm.x 0 v) 15
        (wadd64 (Registers.raw (Registers.write vm.x 0 v) 15) (Vm.XLEN / 8))) 15 = _
      rw [register_read_write, if_neg (by omega), if_pos ⟨rfl, hl⟩]
      rw [hraw, hsp]
      simp [Vm.XLEN]
    · intro i hi
      show Registers.read (Registers.write (Registers.write vm.x 0 v) 15
        (wadd64 (Registers.raw (Registers.write vm.x 0 v) 15) (Vm.XLEN / 8))) i = _
      rw [register_read_write]
      by_cases hi0 : i = 0
      · simp [hi0, Registers.read]
      · rw [if_neg hi0, if_neg (fun hc => hi hc.1)]
        rw [register_read_write, if_neg hi0, if_neg (fun hc => hi0 hc.1)]
    · show Registers.read (Registers.write (Registers.write vm.x 0 v) 15
        (wadd64 (Registers.raw (Registers.write vm.x 0 v) 15) (Vm.XLEN / 8))) 0 = 0
      rw [register_read_write]
      simp

/-- Concrete machine for the C10 witness trap branch: program Pop x0,
fresh VM, so sp = stack_bottom = 267 which is one past the last valid
stack address and the Pop's memory read traps. -/
def c10vm : Vm := Vm.new 8 ⟨[33, 0]⟩

/-- Concrete machine for the C10 witness success branch: program
Pop x0, sp = stack_top = 259, and the stack holds the Double 5. -/
def c10vm2 : Vm :=
  { x := [0, 0, 0, 0, 0, 0, 0, 0, 0, 0, 0, 0, 0, 0, 0, 259]
    pc := 256
    program_end := 258
    stack_bottom := 267
    canary_end := 1292
    program := ⟨[33, 0]⟩
    stack := [5, 0, 0, 0, 0, 0, 0, 0]
    done := false }

/-- Witness for C10: on the fresh machine the Pop into x0 still
performs the memory read at [sp] and traps with it; on the machine with
a valid sp the step succeeds, sp is incremented by 8, and x0 still
reads 0. -/
theorem c10_witness :
    Vm.step F0 c10vm = .error .unknownAddress ∧
    isOkE (Vm.step F0 c10vm2) = true ∧
    Registers.read (okState (Vm.step F0 c10vm2) c10vm2).x 15 =
      wadd64 (Registers.read c10vm2.x 15) 8 ∧
    Registers.read (okState (Vm.step F0 c10vm2) c10vm2).x 0 = 0 :=
  ⟨(c10_pop_zero_register F0 c10vm 0 (by decide) (by decide) (by decide)
      (by decide)).1 .unknownAddress (by decide),
   ((c10_pop_zero_register F0 c10vm2 0 (by decide) (by decide) (by decide)
      (by decide)).2 5 (by decide)).1,
   ((c10_pop_zero_register F0 c10vm2 0 (by decide) (by decide) (by decide)
      (by decide)).2 5 (by decide)).2.1,
   ((c10_pop_zero_register F0 c10vm2 0 (by decide) (by decide) (by decide)
      (by decide)).2 5 (by decide)).2.2.2.1⟩

theorem instCmp_X (vm : Vm) (F : FloatOps) (op : Opcode)
    (cmpop : Nat → Nat → Bool) (fr rr : Nat)
    (h1 : vm.read (wadd64 vm.pc 1) Size.Byte = .ok fr)
    (h2 : vm.read (wadd64 vm.pc 2) Size.Byte = .ok rr)
    (hf : fr / 16 = 0) :
    vm.instCmp F op cmpop = .ok { vm with
      pc := wadd64 vm.pc 3,
      x := Registers.write vm.x (fr % 16)
        (if cmpop (Registers.read vm.x (rr / 16))
          (Registers.read vm.x (rr % 16)) = true then 1 else 0) } := by
  unfold Vm.instCmp Vm.decodeArith
  rw [h1, h2]
  simp only [hf]
  simp only [show AFunct.fromNibble 0 = some AFunct.X from rfl]

theorem instBranch_eq (vm : Vm) (cond : Nat → Nat → Bool) (rr imm : Nat)
    (h1 : vm.read (wadd64 vm.pc 1) Size.Byte = .ok rr)
    (h2 : vm.read (wadd64 vm.pc 2) Size.Half = .ok imm) :
    vm.instBranch cond = .ok { vm with
      pc :=
        if cond (Registers.read vm.x (rr / 16))
            (Registers.read vm.x (rr % 16)) = true
        then wadd64 (wadd64 vm.pc 4) imm
        else wadd64 vm.pc 4 } := by
  unfold Vm.instBranch Vm.decodeRIR
  rw [h1, h2]
  dsimp only
  split <;> simp_all

/-- C5: with funct X the comparisons Clt/Cge/Ceq/Cne (opcode bytes
5, 6, 7, 8) compare the full 64-bit register values as unsigned
integers — the natural-number order on the register contents — and
write 1 or 0 to rd; and the branches Beq/Bne/Blt/Bge (opcode bytes
15, 16, 17, 18) take iff the unsigned comparison of [r1] and [r2]
holds, adding imm16 to the advanced pc when taken. In particular, for a
value with the high bit set and a small value, Clt yields 0 and Blt
falls through, since the comparison is unsigned. -/
theorem c5_unsigned_comparisons_and_branches (F : FloatOps) (vm : Vm)
    (fr rr imm : Nat) :
    (vm.read vm.pc Size.Byte = .ok 5 →
      vm.read (wadd64 vm.pc 1) Size.Byte = .ok fr →
      vm.read (wadd64 vm.pc 2) Size.Byte = .ok rr → fr / 16 = 0 →
      vm.step F = .ok { vm with
        pc := wadd64 vm.pc 3,
        x := Registers.write vm.x (fr % 16)
          (if Registers.read vm.x (rr / 16) < Registers.read vm.x (rr % 16)
           then 1 else 0) }) ∧
    (vm.read vm.pc Size.Byte = .ok 6 →
      vm.read (wadd64 vm.pc 1) Size.Byte = .ok fr →
      vm.read (wadd64 vm.pc 2) Size.Byte = .ok rr → fr / 16 = 0 →
      vm.step F = .ok { vm with
        pc := wadd64 vm.pc 3,
        x := Registers.write vm.x (fr % 16)
          (if Registers.read vm.x (rr % 16) ≤ Registers.read vm.x (rr / 16)
           then 1 else 0) }) ∧
    (vm.read vm.pc Size.Byte = .ok 7 →
      vm.read (wadd64 vm.pc 1) Size.Byte = .ok fr →
      vm.read (wadd64 vm.pc 2) Size.Byte = .ok rr → fr / 16 = 0 →
      vm.step F = .ok { vm with
        pc := wadd64 vm.pc 3,
        x := Registers.write vm.x (fr % 16)
          (if Registers.read vm.x (rr / 16) = Registers.read vm.x (rr % 16)
           then 1 else 0) }) ∧
    (vm.read vm.pc Size.Byte = .ok 8 →
      vm.read (wadd64 vm.pc 1) Size.Byte = .ok fr →
      vm.read (wadd64 vm.pc 2) Size.Byte = .ok rr → fr / 16 = 0 →
      vm.step F = .ok { vm with
        pc := wadd64 vm.pc 3,
        x := Registers.write vm.x (fr % 16)
          (if Registers.read vm.x (rr / 16) ≠ Registers.read vm.x (rr % 16)
           then 1 else 0) }) ∧
    (vm.read vm.pc Size.Byte = .ok 15 →
      vm.read (wadd64 vm.pc 1) Size.Byte = .ok rr →
      vm.read (wadd64 vm.pc 2) Size.Half = .ok imm →
      vm.step F = .ok { vm with
        pc :=
          if Registers.read vm.x (rr / 16) = Registers.read vm.x (rr % 16)
          then wadd64 (wadd64 vm.pc 4) imm
          else wadd64 vm.pc 4 }) ∧
    (vm.read vm.pc Size.Byte = .ok 16 →
      vm.read (wadd64 vm.pc 1) Size.Byte = .ok rr →
      vm.read (wadd64 vm.pc 2) Size.Half = .ok imm →
      vm.step F = .ok { vm with
        pc :=
          if Registers.read vm.x (rr / 16) ≠ Registers.read vm.x (rr % 16)
          then wadd64 (wadd64 vm.pc 4) imm
          else wadd64 vm.pc 4 }) ∧
    (vm.read vm.pc Size.Byte = .ok 17 →
      vm.read (wadd64 vm.pc 1) Size.Byte = .ok rr →
      vm.read (wadd64 vm.pc 2) Size.Half = .ok imm →
      vm.step F = .ok { vm with
        pc :=
          if Registers.read vm.x (rr / 16) < Registers.read vm.x (rr % 16)
          then wadd64 (wadd64 vm.pc 4) imm
          else wadd64 vm.pc 4 }) ∧
    (vm.read vm.pc Size.Byte = .ok 18 →
      vm.read (wadd64 vm.pc 1) Size.Byte = .ok rr →
      vm.read (wadd64 vm.pc 2) Size.Half = .ok imm →
      vm.step F = .ok { vm with
        pc :=
          if Registers.read vm.x (rr % 16) ≤ Registers.read vm.x (rr / 16)
          then wadd64 (wadd64 vm.pc 4) imm
          else wadd64 vm.pc 4 }) := by
  refine ⟨?_, ?_, ?_, ?_, ?_, ?_, ?_, ?_⟩
  · intro h0 h1 h2 hf
    unfold Vm.step
    rw [h0]
    simp only [show Opcode.fromByte 5 = some Opcode.Clt from rfl]
    rw [instCmp_X vm F _ _ fr rr h1 h2 hf]
    simp [decide_eq_true_eq]
  · intro h0 h1 h2 hf
    unfold Vm.step
    rw [h0]
    simp only [show Opcode.fromByte 6 = some Opcode.Cge from rfl]
    rw [instCmp_X vm F _ _ fr rr h1 h2 hf]
    simp [decide_eq_true_eq]
  · intro h0 h1 h2 hf
    unfold Vm.step
    rw [h0]
    simp only [show Opcode.fromByte 7 = some Opcode.Ceq from rfl]
    rw [instCmp_X vm F _ _ fr rr h1 h2 hf]
    simp [decide_eq_true_eq]
  · intro h0 h1 h2 hf
    unfold Vm.step
    rw [h0]
    simp only [show Opcode.fromByte 8 = some Opcode.Cne from rfl]
    rw [instCmp_X vm F _ _ fr rr h1 h2 hf]
    simp [decide_eq_true_eq]
  · intro h0 h1 h2
    unfold Vm.step
    rw [h0]
    simp only [show Opcode.fromByte 15 = some Opcode.Beq from rfl]
    rw [instBranch_eq vm _ rr imm h1 h2]
    simp [decide_eq_true_eq]
  · intro h0 h1 h2
    unfold Vm.step
    rw [h0]
    simp only [show Opcode.fromByte 16 = some Opcode.Bne from rfl]
    rw [instBranch_eq vm _ rr imm h1 h2]
    simp [decide_eq_true_eq]
  · intro h0 h1 h2
    unfold Vm.step
    rw [h0]
    simp only [show Opcode.fromByte 17 = some Opcode.Blt from rfl]
    rw [instBranch_eq vm _ rr imm h1 h2]
    simp [decide_eq_true_eq]
  · intro h0 h1 h2
    unfold Vm.step
    rw [h0]
    simp only [show Opcode.fromByte 18 = some Opcode.Bge from rfl]
    rw [instBranch_eq vm _ rr imm h1 h2]
    simp [decide_eq_true_eq]

/-- Concrete machine for the C5 witness comparison part: program is
Clt.X x1, x2, x3 (bytes 5, 0x01, 0x23) with x2 = 2^63 (high bit set)
and x3 = 1. -/
def c5vm : Vm :=
  { x := [0, 0, 2 ^ 63, 1, 0, 0, 0, 0, 0, 0, 0, 0, 0, 0, 0, 275]
    pc := 256
    program_end := 259
    stack_bottom := 275
    canary_end := 1300
    program := ⟨[5, 0x01, 0x23]⟩
    stack := List.replicate 8 0
    done := false }

/-- Concrete machine for the C5 witness branch part: program is
Blt x2, x3, 2 (bytes 17, 0x23, 2, 0) with x2 = 2^63 and x3 = 1. -/
def c5vmB : Vm :=
  { x := [0, 0, 2 ^ 63, 1, 0, 0, 0, 0, 0, 0, 0, 0, 0, 0, 0, 275]
    pc := 256
    program_end := 260
    stack_bottom := 275
    canary_end := 1300
    program := ⟨[17, 0x23, 2, 0]⟩
    stack := List.replicate 8 0
    done := false }

/-- Witness for C5: Clt x1, x2, x3 with x2 = 2^63 and x3 = 1 writes 0
to x1 (2^63 is not below 1 unsigned), and Blt x2, x3, 2 with the same
values falls through to pc = 260 (no displacement added). -/
theorem c5_witness :
    Vm.step F0 c5vm = .ok { c5vm with
      pc := wadd64 c5vm.pc 3,
      x := Registers.write c5vm.x 1
        (if Registers.read c5vm.x 2 < Registers.read c5vm.x 3
         then 1 else 0) } ∧
    Registers.read (Registers.write c5vm.x 1
      (if Registers.read c5vm.x 2 < Registers.read c5vm.x 3
       then 1 else 0)) 1 = 0 ∧
    Vm.step F0 c5vmB = .ok { c5vmB with
      pc :=
        if Registers.read c5vmB.x 2 < Registers.read c5vmB.x 3
        then wadd64 (wadd64 c5vmB.pc 4) 2
        else wadd64 c5vmB.pc 4 } ∧
    (if Registers.read c5vmB.x 2 < Registers.read c5vmB.x 3
     then wadd64 (wadd64 c5vmB.pc 4) 2
     else wadd64 c5vmB.pc 4) = 260 :=
  ⟨(c5_unsigned_comparisons_and_branches F0 c5vm 1 0x23 0).1 rfl rfl rfl rfl,
   by decide,
   (c5_unsigned_comparisons_and_branches F0 c5vmB 0 0x23 2).2.2.2.2.2.2.1
     rfl rfl rfl,
   by decide⟩

/-- Program of the amended stack-LIFO property: LiD r, v; Push r;
Pop rp, 14 bytes. -/
def lifoProg (r rp v : Nat) : List Nat :=
  [30, r] ++ natToLeBytes 8 v ++ [32, r, 33, rp]

/-- Freshly constructed machine running the LIFO sequence: program
region [256, 270), stack region [271, 287), sp = stack_bottom = 287. -/
def lifoVm (r rp v : Nat) : Vm := Vm.new 16 ⟨lifoProg r rp v⟩

set_option maxRecDepth 8000 in
/-- C7 amended: for registers r and rp with 1 <= r, rp <= 14 (excluding
the zero register x0 and the stack pointer x15) and any value
v < 2^64, the sequence LiD r, v; Push r; Pop rp run from a fresh VM
executes successfully, leaves the observable value of rp equal to v,
and leaves sp equal to stack_bottom, its value before the Push. -/
theorem c7_lifo_amended (F : FloatOps) (r rp v : Nat)
    (hr1 : 1 ≤ r) (hr2 : r ≤ 14) (hp1 : 1 ≤ rp) (hp2 : rp ≤ 14)
    (hv : v < 2 ^ 64) :
    isOkE (stepN F (lifoVm r rp v) 3) = true ∧
    Registers.read (okState (stepN F (lifoVm r rp v) 3) (lifoVm r rp v)).x rp
      = v ∧
    Registers.read (okState (stepN F (lifoVm r rp v) 3) (lifoVm r rp v)).x 15
      = (lifoVm r rp v).stack_bottom := by
  have hv8 : v % 256 ^ 8 = v := by
    rw [show (256 : Nat) ^ 8 = 2 ^ 64 by norm_num]
    exact Nat.mod_eq_of_lt hv
  have hxlen0 : List.length (lifoVm r rp v).x = 16 := rfl
  have hraw1 : Registers.raw (Registers.write (lifoVm r rp v).x r v) 15
      = 287 := by
    rw [register_raw_write_ne _ _ _ _ (show (15 : Nat) ≠ r by omega)]
    rfl
  have hread15 : Registers.read (Registers.write
      (Registers.write (lifoVm r rp v).x r v) 15 279) 15 = 279 :=
    register_read_write_eq _ _ _ (by omega)
      (by rw [register_length_write, hxlen0]; omega)
  have hreadr : Registers.read (Registers.write
      (Registers.write (lifoVm r rp v).x r v) 15 279) r = v := by
    rw [register_read_write_ne _ _ _ _ (show r ≠ 15 by omega)]
    exact register_read_write_eq _ _ _ (by omega) (by rw [hxlen0]; omega)
  have hraw3 : Registers.raw (Registers.write (Registers.write
      (Registers.write (lifoVm r rp v).x r v) 15 279) rp v) 15 = 279 := by
    rw [register_raw_write_ne _ _ _ _ (show (15 : Nat) ≠ rp by omega)]
    exact register_raw_write_eq _ _ _
      (by rw [register_length_write, hxlen0]; omega)
  have hs1 : Vm.step F (lifoVm r rp v) = .ok { lifoVm r rp v with
      pc := 266,
      x := Registers.write (lifoVm r rp v).x r v } := by
    unfold Vm.step
    rw [show (lifoVm r rp v).read (lifoVm r rp v).pc Size.Byte = .ok 30 from
      rfl]
    simp only [show Opcode.fromByte 30 = some Opcode.LiD from rfl]
    unfold Vm.instLi
    rw [show (lifoVm r rp v).read (wadd64 (lifoVm r rp v).pc 1) Size.Byte
        = .ok r from rfl]
    rw [show (lifoVm r rp v).read (wadd64 (lifoVm r rp v).pc 2) Size.Double
        = .ok (leVal (natToLeBytes 8 v)) from rfl]
    rw [leVal_natToLeBytes, hv8]
    dsimp only
    rw [Nat.mod_eq_of_lt (show r < 16 by omega)]
    rfl
  have hs2 : Vm.step F { lifoVm r rp v with
      pc := 266,
      x := Registers.write (lifoVm r rp v).x r v } = .ok { lifoVm r rp v with
      pc := 268,
      x := Registers.write (Registers.write (lifoVm r rp v).x r v) 15 279,
      stack := writeBytes (List.replicate 16 0) 8 (natToLeBytes 8 v) } := by
    unfold Vm.step
    rw [show Vm.read { lifoVm r rp v with
        pc := 266,
        x := Registers.write (lifoVm r rp v).x r v } 266 Size.Byte
        = .ok 32 from rfl]
    simp only [show Opcode.fromByte 32 = some Opcode.Push from rfl]
    rw [show Vm.read { lifoVm r rp v with
        pc := 266,
        x := Registers.write (lifoVm r rp v).x r v } (wadd64 266 1) Size.Byte
        = .ok r from rfl]
    dsimp only
    rw [Nat.mod_eq_of_lt (show r < 16 by omega)]
    simp only [Reg.sp, show Vm.XLEN / 8 = 8 from rfl, hraw1,
      show wsub64 287 8 = 279 from rfl, hread15, hreadr]
    rfl
  have hs3 : Vm.step F { lifoVm r rp v with
      pc := 268,
      x := Registers.write (Registers.write (lifoVm r rp v).x r v) 15 279,
      stack := writeBytes (List.replicate 16 0) 8 (natToLeBytes 8 v) }
      = .ok { lifoVm r rp v with
      pc := 270,
      x := Registers.write (Registers.write (Registers.write
        (Registers.write (lifoVm r rp v).x r v) 15 279) rp v) 15 287,
      stack := writeBytes (List.replicate 16 0) 8 (natToLeBytes 8 v) } := by
    unfold Vm.step
    rw [show Vm.read { lifoVm r rp v with
        pc := 268,
        x := Registers.write (Registers.write (lifoVm r rp v).x r v) 15 279,
        stack := writeBytes (List.replicate 16 0) 8 (natToLeBytes 8 v) }
        268 Size.Byte = .ok 33 from rfl]
    simp only [show Opcode.fromByte 33 = some Opcode.Pop from rfl]
    rw [show Vm.read { lifoVm r rp v with
        pc := 268,
        x := Registers.write (Registers.write (lifoVm r rp v).x r v) 15 279,
        stack := writeBytes (List.replicate 16 0) 8 (natToLeBytes 8 v) }
        (wadd64 268 1) Size.Byte = .ok rp from rfl]
    dsimp only
    rw [Nat.mod_eq_of_lt (show rp < 16 by omega)]
    simp only [Reg.sp, hread15]
    rw [show Vm.read { lifoVm r rp v with
        pc := wadd64 268 2,
        x := Registers.write (Registers.write (lifoVm r rp v).x r v) 15 279,
        stack := writeBytes (List.replicate 16 0) 8 (natToLeBytes 8 v) }
        279 Size.Double = .ok v from by
      show Except.ok (leVal (natToLeBytes 8 v)) = Except.ok v
      rw [leVal_natToLeBytes, hv8]]
    simp only [Reg.sp, show Vm.XLEN / 8 = 8 from rfl, hraw3,
      show wadd64 279 8 = 287 from rfl]
    rfl
  have hrun : stepN F (lifoVm r rp v) 3 = .ok { lifoVm r rp v with
      pc := 270,
      x := Registers.write (Registers.write (Registers.write
        (Registers.write (lifoVm r rp v).x r v) 15 279) rp v) 15 287,
      stack := writeBytes (List.replicate 16 0) 8 (natToLeBytes 8 v) } := by
    simp only [stepN, hs1, hs2, hs3]
  rw [hrun]
  have hl3 : rp < List.length (Registers.write (Registers.write
      (lifoVm r rp v).x r v) 15 279) := by
    rw [register_length_write, register_length_write, hxlen0]
    omega
  have hl4 : (15 : Nat) < List.length (Registers.write (Registers.write
      (Registers.write (lifoVm r rp v).x r v) 15 279) rp v) := by
    rw [register_length_write, register_length_write, register_length_write,
      hxlen0]
    omega
  refine ⟨rfl, ?_, ?_⟩
  · show Registers.read (Registers.write (Registers.write (Registers.write
      (Registers.write (lifoVm r rp v).x r v) 15 279) rp v) 15 287) rp = v
    rw [register_read_write_ne _ _ _ _ (show rp ≠ 15 by omega)]
    exact register_read_write_eq _ _ _ (by omega) hl3
  · show Registers.read (Registers.write (Registers.write (Registers.write
      (Registers.write (lifoVm r rp v).x r v) 15 279) rp v) 15 287) 15
      = (lifoVm r rp v).stack_bottom
    rw [register_read_write_eq _ _ _ (by omega) hl4]
    rfl

/-- Witness for the amended C7: r = x1, rp = x2,
v = 0xDEADBEEFCAFEBABE. -/
theorem c7_lifo_witness :
    isOkE (stepN F0 (lifoVm 1 2 0xDEADBEEFCAFEBABE) 3) = true ∧
    Registers.read (okState (stepN F0 (lifoVm 1 2 0xDEADBEEFCAFEBABE) 3)
      (lifoVm 1 2 0xDEADBEEFCAFEBABE)).x 2 = 0xDEADBEEFCAFEBABE ∧
    Registers.read (okState (stepN F0 (lifoVm 1 2 0xDEADBEEFCAFEBABE) 3)
      (lifoVm 1 2 0xDEADBEEFCAFEBABE)).x 15
      = (lifoVm 1 2 0xDEADBEEFCAFEBABE).stack_bottom :=
  c7_lifo_amended F0 1 2 0xDEADBEEFCAFEBABE (by decide) (by decide)
    (by decide) (by decide) (by decide)

end Lun
